import Mathlib

/-!
Shallow embedding of `src/input/Pointer.js` (Phaser.Pointer): the pointer
lifecycle state machine (`start`, `move`, `update`, `stop`, `leave`, `reset`,
`justPressed`, `justReleased`, `duration`) and the two-pass hit-test resolver
(`processInteractiveObjects`).

JavaScript numbers used by this file are timestamps, coordinates, priorities
and render-order ids; all arithmetic on them is exact integer arithmetic in
the source's operating range, so they are modelled as `Int`.

The interactive candidates (`Phaser.InputHandler` instances) are an external
collaborator: only their surface used by `Pointer.js` is modelled, following
the spec's description of that interface (each such definition carries a
`Modelled from the spec:` note).  Object identity (`===` in the source) is
modelled as structural equality of the `Candidate` value.
-/

namespace Phaser

/-- `Number.MAX_SAFE_INTEGER`, the initial value of `_highestRenderOrderID`. -/
def maxSafeInteger : Int := 9007199254740991

/-- `Number.MAX_VALUE` (the largest finite double), the initial value of
`msSinceLastClick`. -/
def numberMaxValue : Int := 2 ^ 1024 - 2 ^ 971

/-- Modelled from the spec: one interactive candidate (external
`Phaser.InputHandler`), reduced to the surface `Pointer.js` consumes: a
priority value (`priorityID`), a render-order value (`sprite._cache[3]`,
here `renderOrderID`), whether it requires the expensive exact
(pixel-perfect) test, the outcomes of its coarse bounds test for the two
interaction kinds (`cheapDown`/`cheapOver`), the outcome of its exact pixel
test (`exactPass`), the boolean returned by its per-frame `update(pointer)`
callback (`updateResult`), and its `isDragged` flag.  `cid` is an identity
tag used only to label notification events. -/
structure Candidate where
  cid : Nat
  priorityID : Int
  renderOrderID : Int
  pixelPerfect : Bool
  cheapDown : Bool
  cheapOver : Bool
  exactPass : Bool
  updateResult : Bool
  isDragged : Bool
deriving DecidableEq

/-- Modelled from the spec: `InputHandler.checkPointerDown(pointer, fastTest)`
(not part of this file's source).  The coarse bounds test is `cheapDown`; when
`fastTest` is false and the candidate is pixel-perfect the expensive exact
test must also pass. -/
def checkPointerDown (c : Candidate) (fastTest : Bool) : Bool :=
  c.cheapDown && (fastTest || !c.pixelPerfect || c.exactPass)

/-- Modelled from the spec: `InputHandler.checkPointerOver(pointer, fastTest)`
(not part of this file's source), analogous to `checkPointerDown`. -/
def checkPointerOver (c : Candidate) (fastTest : Bool) : Bool :=
  c.cheapOver && (fastTest || !c.pixelPerfect || c.exactPass)

/-- The combined check used by both passes of `processInteractiveObjects`:
`(fromClick && checkPointerDown(this, fastTest)) ||
 (!fromClick && checkPointerOver(this, fastTest))`. -/
def pointerCheck (fromClick : Bool) (c : Candidate) (fastTest : Bool) : Bool :=
  (fromClick && checkPointerDown c fastTest) || (!fromClick && checkPointerOver c fastTest)

/-- The displacement comparison used by `validForInput`: a candidate with
priority `pr` and render order `ro` can displace the current best
`(hiP, hiR)` iff its priority is strictly higher, or equal with a numerically
lower render-order id. -/
def beats (pr ro hiP hiR : Int) : Bool :=
  decide (pr > hiP) || (decide (pr = hiP) && decide (ro < hiR))

/-- Modelled from the spec: `InputHandler.validForInput(highestID,
highestRenderID, includePixelPerfect)` (not part of this file's source).
Pixel-perfect candidates are excluded unless `includePixelPerfect`; otherwise
the candidate is valid iff it can still displace the current best. -/
def validForInput (c : Candidate) (highestID highestRenderID : Int)
    (includePixelPerfect : Bool) : Bool :=
  (includePixelPerfect || !c.pixelPerfect) &&
    beats c.priorityID c.renderOrderID highestID highestRenderID

/-- The resolver's scratch state: `_highestRenderOrderID`,
`_highestInputPriorityID` and `_highestRenderObject` of
`processInteractiveObjects`. -/
structure ResolveState where
  highestRenderOrderID : Int
  highestInputPriorityID : Int
  highestRenderObject : Option Candidate
deriving DecidableEq

/-- The initial resolver state: `Number.MAX_SAFE_INTEGER`, `-1`, `null`. -/
def initResolveState : ResolveState := ⟨maxSafeInteger, -1, none⟩

/-- Pass 1 of `processInteractiveObjects`: walk the candidates once; a
candidate passing `validForInput(·, ·, false)` is flagged `checked = true`
(before its overlap test runs) and, if its fast check succeeds, becomes the
new best.  All candidates start with a cleared flag
(`interactiveItems.setAll('checked', false)`); the returned list pairs each
candidate with its flag after the pass. -/
def pass1 (fromClick : Bool) :
    ResolveState → List Candidate → ResolveState × List (Candidate × Bool)
  | s, [] => (s, [])
  | s, c :: cs =>
    if validForInput c s.highestInputPriorityID s.highestRenderOrderID false then
      if pointerCheck fromClick c true then
        let r := pass1 fromClick ⟨c.renderOrderID, c.priorityID, some c⟩ cs
        (r.1, (c, true) :: r.2)
      else
        let r := pass1 fromClick s cs
        (r.1, (c, true) :: r.2)
    else
      let r := pass1 fromClick s cs
      (r.1, (c, false) :: r.2)

/-- Pass 2 of `processInteractiveObjects`: walk the flagged candidates; an
unchecked candidate still passing `validForInput(·, ·, true)` has its slow
check run (`fastTest = false`, the only place the exact pixel test can be
invoked) and on success becomes the new best.  The second component records
every candidate on which the slow check was executed. -/
def pass2 (fromClick : Bool) :
    ResolveState → List (Candidate × Bool) → ResolveState × List Candidate
  | s, [] => (s, [])
  | s, (c, chk) :: rest =>
    if !chk && validForInput c s.highestInputPriorityID s.highestRenderOrderID true then
      if pointerCheck fromClick c false then
        let r := pass2 fromClick ⟨c.renderOrderID, c.priorityID, some c⟩ rest
        (r.1, c :: r.2)
      else
        let r := pass2 fromClick s rest
        (r.1, c :: r.2)
    else
      let r := pass2 fromClick s rest
      (r.1, r.2)

/-- Both passes, from the initial scratch state. -/
def resolvePasses (items : List Candidate) (fromClick : Bool) :
    ResolveState × List Candidate :=
  let r1 := pass1 fromClick initResolveState items
  pass2 fromClick r1.1 r1.2

/-- The `_highestRenderObject` left by the two passes. -/
def resolveWinner (items : List Candidate) (fromClick : Bool) : Option Candidate :=
  (resolvePasses items fromClick).1.highestRenderObject

/-- The candidates on which pass 2 executed the slow (`fastTest = false`)
check; the exact pixel test runs only inside such an execution, so this list
bounds the exact-test invocations of a resolution call. -/
def resolveInvocations (items : List Candidate) (fromClick : Bool) : List Candidate :=
  (resolvePasses items fromClick).2

/-- Notifications and signals dispatched by the pointer operations. -/
inductive Event where
  | pointerOut (cid : Nat)
  | pointerOver (cid : Nat)
  | targetUpdate (cid : Nat)
  | dragUpdate (cid : Nat)
  | touched (cid : Nat)
  | released (cid : Nat)
  | onDown
  | onUp
  | onHold
  | onTap (isDouble : Bool)
  | resetSpeed
  | moveCallback
  | preventDefault
deriving DecidableEq

/-- The resolution/notification tail of `processInteractiveObjects` (source
lines 517-558): compare the previous `targetObject` with the new best, emit
out/over/update notifications, and produce the new `targetObject`.  The third
component records every value written to `targetObject`, so that the number
of identity changes per call can be stated. -/
def resolveTarget (prev best : Option Candidate) :
    Option Candidate × List Event × List (Option Candidate) :=
  match best with
  | none =>
    match prev with
    | some t => (none, [Event.pointerOut t.cid], [none])
    | none => (none, [], [])
  | some b =>
    match prev with
    | none => (some b, [Event.pointerOver b.cid], [some b])
    | some t =>
      if t = b then
        if b.updateResult then (some b, [Event.targetUpdate b.cid], [])
        else (none, [Event.targetUpdate b.cid], [none])
      else
        (some b, [Event.pointerOut t.cid, Event.pointerOver b.cid], [some b])

/-- The multi-input override policy of the external input manager. -/
inductive OverrideMode where
  | mouseOverridesTouch
  | touchOverridesMouse
  | mouseTouchCombine
deriving DecidableEq

/-- The external input-manager/game context consumed by `Pointer.js`:
tunable rates, the override policy, the shared `currentPointers` counter, the
candidate traversal, pause/poll flags, and the page-to-scene transform.  The
scene bounds used by `scale.bounds.contains` are modelled from the spec as a
rectangle. -/
structure InputManager where
  now : Int
  multiInputOverride : OverrideMode
  currentPointers : Int
  inputX : Int
  inputY : Int
  tapRate : Int
  doubleTapRate : Int
  holdRate : Int
  justPressedRate : Int
  justReleasedRate : Int
  recordPointerHistory : Bool
  recordRate : Int
  recordLimit : Nat
  pollLocked : Bool
  paused : Bool
  mouseLocked : Bool
  interactiveItems : List Candidate
  moveCallbackCount : Nat
  stageOffsetX : Int
  stageOffsetY : Int
  scaleX : Int
  scaleY : Int
  boundsX : Int
  boundsY : Int
  boundsW : Int
  boundsH : Int
  activePointerId : Option Nat

/-- The condition guarding shared-signal dispatch and active-pointer updates:
`multiInputOverride === MOUSE_OVERRIDES_TOUCH || === MOUSE_TOUCH_COMBINE ||
(=== TOUCH_OVERRIDES_MOUSE && currentPointers === 0)`. -/
def overrideActive (m : InputManager) : Bool :=
  m.multiInputOverride = OverrideMode.mouseOverridesTouch ||
  m.multiInputOverride = OverrideMode.mouseTouchCombine ||
  (m.multiInputOverride = OverrideMode.touchOverridesMouse && m.currentPointers = 0)

/-- Modelled from the spec: the externally supplied bounds-containment test
(`game.scale.bounds.contains(pageX, pageY)`), as rectangle containment. -/
def rectContains (rx ry rw rh px py : Int) : Bool :=
  decide (rw > 0) && decide (rh > 0) &&
  decide (px ≥ rx) && decide (px ≤ rx + rw) && decide (py ≥ ry) && decide (py ≤ ry + rh)

/-- One pointer slot: the fields of the `Phaser.Pointer` constructor.
`position`, `positionDown`, `positionUp` and `circle` are kept as coordinate
pairs; the private `_`-prefixed fields drop the underscore. -/
structure Pointer where
  id : Nat
  identifier : Option Int
  pointerId : Option Int
  target : Option Int
  button : Option Int
  holdSent : Bool
  history : List (Int × Int)
  nextDrop : Int
  stateReset : Bool
  withinGame : Bool
  clientX : Int
  clientY : Int
  pageX : Int
  pageY : Int
  screenX : Int
  screenY : Int
  rawMovementX : Int
  rawMovementY : Int
  movementX : Int
  movementY : Int
  x : Int
  y : Int
  isMouse : Bool
  isDown : Bool
  isUp : Bool
  timeDown : Int
  timeUp : Int
  previousTapTime : Int
  totalTouches : Nat
  msSinceLastClick : Int
  targetObject : Option Candidate
  active : Bool
  dirty : Bool
  positionX : Int
  positionY : Int
  positionDownX : Int
  positionDownY : Int
  positionUpX : Int
  positionUpY : Int
  circleX : Int
  circleY : Int

/-- The `Phaser.Pointer` constructor. -/
def mkPointer (id : Nat) : Pointer where
  id := id
  identifier := some 0
  pointerId := none
  target := none
  button := none
  holdSent := false
  history := []
  nextDrop := 0
  stateReset := false
  withinGame := false
  clientX := -1
  clientY := -1
  pageX := -1
  pageY := -1
  screenX := -1
  screenY := -1
  rawMovementX := 0
  rawMovementY := 0
  movementX := 0
  movementY := 0
  x := -1
  y := -1
  isMouse := id = 0
  isDown := false
  isUp := true
  timeDown := 0
  timeUp := 0
  previousTapTime := 0
  totalTouches := 0
  msSinceLastClick := numberMaxValue
  targetObject := none
  active := false
  dirty := false
  positionX := 0
  positionY := 0
  positionDownX := 0
  positionDownY := 0
  positionUpX := 0
  positionUpY := 0
  circleX := 0
  circleY := 0

/-- The raw DOM event as consumed by `start`/`move`/`stop`: absent fields are
`none`; the vendor-prefixed movement fallbacks are collapsed into
`movementX`/`movementY`. -/
structure DomEvent where
  pointerId : Option Int
  identifier : Option Int
  target : Option Int
  button : Option Int
  clientX : Int
  clientY : Int
  pageX : Int
  pageY : Int
  screenX : Int
  screenY : Int
  movementX : Int
  movementY : Int

/-- JavaScript truthiness of an optional number (`if (event['pointerId'])`):
absent and `0` are falsy. -/
def jsTruthyInt : Option Int → Bool
  | some v => v ≠ 0
  | none => false

/-- JavaScript `a || b` defaulting for an optional numeric argument
(`duration = duration || rate`): absent and `0` fall back to the default. -/
def jsOrInt : Option Int → Int → Int
  | some v, d => if v = 0 then d else v
  | none, d => d

/-- `Phaser.Pointer#duration`: `-1` when up, else `now - timeDown`. -/
def duration (p : Pointer) (m : InputManager) : Int :=
  if p.isUp then -1 else m.now - p.timeDown

/-- `Phaser.Pointer#processInteractiveObjects`: both passes followed by the
resolution/notification tail; returns the updated pointer, the notifications,
and `targetObject !== null`. -/
def processInteractiveObjects (p : Pointer) (items : List Candidate)
    (fromClick : Bool) : Pointer × List Event × Bool :=
  let s2 := (resolvePasses items fromClick).1
  let r := resolveTarget p.targetObject s2.highestRenderObject
  ({ p with targetObject := r.1 }, r.2.1, (r.1).isSome)

/-- The tail of `move`: if any interactive candidates exist, run the
resolver. -/
def moveHitTest (p : Pointer) (m : InputManager) (fromClick : Bool) :
    Pointer × List Event :=
  if m.interactiveItems.length > 0 then
    let r := processInteractiveObjects p m.interactiveItems fromClick
    (r.1, r.2.1)
  else (p, [])

/-- The coordinate/field-update prefix of `move`: raw event fields, the
pointer-lock movement accumulation, the scaled scene coordinates with the
mirrored `position`/`circle` pair, and the `withinGame` containment test
(which reads the scene bounds, untouched by the override block the source
interleaves here). -/
def movePosition (p : Pointer) (m : InputManager) (ev : DomEvent) (fromClick : Bool) : Pointer :=
  let p1 := { p with
    button := if ev.button.isSome then ev.button else p.button
    clientX := ev.clientX, clientY := ev.clientY
    pageX := ev.pageX, pageY := ev.pageY
    screenX := ev.screenX, screenY := ev.screenY }
  let p2 :=
    if p1.isMouse && m.mouseLocked && !fromClick then
      { p1 with
        rawMovementX := ev.movementX, rawMovementY := ev.movementY
        movementX := p1.movementX + ev.movementX
        movementY := p1.movementY + ev.movementY }
    else p1
  let nx := (p2.pageX - m.stageOffsetX) * m.scaleX
  let ny := (p2.pageY - m.stageOffsetY) * m.scaleY
  { p2 with
    x := nx, y := ny, positionX := nx, positionY := ny, circleX := nx, circleY := ny
    withinGame := rectContains m.boundsX m.boundsY m.boundsW m.boundsH ev.pageX ev.pageY }

/-- `Phaser.Pointer#move`. -/
def move (p : Pointer) (m : InputManager) (ev : DomEvent) (fromClick : Bool) :
    Pointer × InputManager × List Event :=
  if m.pollLocked then (p, m, [])
  else
    let p4 := movePosition p m ev fromClick
    let m1 :=
      if overrideActive m then
        { m with activePointerId := some p4.id, inputX := p4.x, inputY := p4.y }
      else m
    if m1.paused then (p4, m1, [])
    else
      let moveEvs := List.replicate m1.moveCallbackCount Event.moveCallback
      match p4.targetObject with
      | some t =>
        if t.isDragged then
          if t.updateResult then (p4, m1, moveEvs ++ [Event.dragUpdate t.cid])
          else ({ p4 with targetObject := none }, m1, moveEvs ++ [Event.dragUpdate t.cid])
        else
          let r := moveHitTest p4 m1 fromClick
          (r.1, m1, moveEvs ++ r.2)
      | none =>
        let r := moveHitTest p4 m1 fromClick
        (r.1, m1, moveEvs ++ r.2)

/-- `Phaser.Pointer#start`. -/
def start (p : Pointer) (m : InputManager) (ev : DomEvent) :
    Pointer × InputManager × List Event :=
  let p1 := if jsTruthyInt ev.pointerId then { p with pointerId := ev.pointerId } else p
  let p2 := { p1 with identifier := ev.identifier, target := ev.target }
  let p3 := if ev.button.isSome then { p2 with button := ev.button } else p2
  let p4 := { p3 with
    history := [], active := true, withinGame := true
    isDown := true, isUp := false, dirty := false
    msSinceLastClick := m.now - p3.timeDown, timeDown := m.now
    holdSent := false }
  let r := move p4 m ev true
  let p5 := r.1
  let m1 := r.2.1
  let p6 := { p5 with positionDownX := p5.x, positionDownY := p5.y }
  let dres : InputManager × List Event :=
    if overrideActive m1 then
      ({ m1 with inputX := p6.x, inputY := p6.y }, [Event.onDown, Event.resetSpeed])
    else (m1, [])
  let p7 := { p6 with stateReset := false, totalTouches := p6.totalTouches + 1 }
  let m2 := if p7.isMouse = false then
      { dres.1 with currentPointers := dres.1.currentPointers + 1 }
    else dres.1
  let tevs := match p7.targetObject with
    | some t => [Event.touched t.cid]
    | none => []
  (p7, m2, r.2.2 ++ dres.2 ++ tevs)

/-- The dirty-flag stage of `update`: when `dirty`, force a full resolution
(`fromClick = true`) if any candidates exist, then clear the flag. -/
def updateDirty (p : Pointer) (m : InputManager) : Pointer × List Event :=
  if p.dirty then
    if m.interactiveItems.length > 0 then
      let r := processInteractiveObjects p m.interactiveItems true
      ({ r.1 with dirty := false }, r.2.1)
    else ({ p with dirty := false }, [])
  else (p, [])

/-- The hold-detection stage of `update`: signal `onHold` once per press when
the hold threshold is exceeded (the signal itself is gated by the override
policy, the `_holdSent` latch is not). -/
def updateHold (p : Pointer) (m : InputManager) : Pointer × List Event :=
  if p.holdSent = false ∧ duration p m ≥ m.holdRate then
    ({ p with holdSent := true }, if overrideActive m then [Event.onHold] else [])
  else (p, [])

/-- The history-recording stage of `update`: at the throttled rate, append a
`position` sample and evict the front sample once the buffer exceeds
`recordLimit`. -/
def updateHistory (p : Pointer) (m : InputManager) : Pointer :=
  if m.recordPointerHistory = true ∧ m.now ≥ p.nextDrop then
    let h := p.history ++ [(p.positionX, p.positionY)]
    { p with
      nextDrop := m.now + m.recordRate
      history := if h.length > m.recordLimit then h.tail else h }
  else p

/-- `Phaser.Pointer#update`: dirty re-resolution, hold detection, and the
throttled history recording with FIFO eviction; a no-op on an inactive
pointer. -/
def update (p : Pointer) (m : InputManager) : Pointer × InputManager × List Event :=
  if p.active = false then (p, m, [])
  else
    let r1 := updateDirty p m
    let r2 := updateHold r1.1 m
    (updateHistory r2.1 m, m, r1.2 ++ r2.2)

/-- The signal stage of `stop` (after `timeUp` has been recorded): when the
override policy makes this pointer's signals active, dispatch `onUp` and
classify the release — a tap when `duration` lies within `[0, tapRate]`, a
double tap when additionally `timeUp - previousTapTime < doubleTapRate` —
updating `previousTapTime` only when a tap was declared. -/
def stopTap (p : Pointer) (m : InputManager) : Pointer × List Event :=
  if overrideActive m then
    if 0 ≤ duration p m ∧ duration p m ≤ m.tapRate then
      ({ p with previousTapTime := p.timeUp },
        [Event.onUp, Event.onTap (decide (p.timeUp - p.previousTapTime < m.doubleTapRate))])
    else (p, [Event.onUp])
  else (p, [])

/-- `Phaser.Pointer#stop`.  The `ev` argument is consumed only by the
suppressed branch's `event.preventDefault()`. -/
def stop (p : Pointer) (m : InputManager) (_ev : DomEvent) :
    Pointer × InputManager × List Event :=
  if p.stateReset then (p, m, [Event.preventDefault])
  else
    let p1 := { p with timeUp := m.now }
    let r1 := stopTap p1 m
    let p2 := r1.1
    let p3 := if p2.id > 0 then { p2 with active := false } else p2
    let p4 := { p3 with
      withinGame := false, isDown := false, isUp := true
      pointerId := none, identifier := none
      positionUpX := p3.x, positionUpY := p3.y }
    let m1 := if p4.isMouse = false then
        { m with currentPointers := m.currentPointers - 1 }
      else m
    ({ p4 with targetObject := none }, m1,
      r1.2 ++ m.interactiveItems.map fun c => Event.released c.cid)

/-- `Phaser.Pointer#leave`: clear `withinGame`, then `move` with
`fromClick = false`. -/
def leave (p : Pointer) (m : InputManager) (ev : DomEvent) :
    Pointer × InputManager × List Event :=
  move { p with withinGame := false } m ev false

/-- `Phaser.Pointer#reset`: deactivate (mouse excluded), clear identifiers
and flags, empty the history, raise `_stateReset`, notify and clear any
assigned target. -/
def reset (p : Pointer) : Pointer × List Event :=
  let p1 := if p.isMouse = false then { p with active := false } else p
  let evs := match p1.targetObject with
    | some t => [Event.released t.cid]
    | none => []
  ({ p1 with
      pointerId := none, identifier := none, dirty := false
      isDown := false, isUp := true, totalTouches := 0
      holdSent := false, history := [], stateReset := true
      targetObject := none }, evs)

/-- `Phaser.Pointer#justPressed`. -/
def justPressed (p : Pointer) (m : InputManager) (dur : Option Int) : Bool :=
  p.isDown && decide (p.timeDown + jsOrInt dur m.justPressedRate > m.now)

/-- `Phaser.Pointer#justReleased`. -/
def justReleased (p : Pointer) (m : InputManager) (dur : Option Int) : Bool :=
  p.isUp && decide (p.timeUp + jsOrInt dur m.justReleasedRate > m.now)

/-- The resolver state records `w` as the current best, with the floor set to
`w`'s priority and render order (the shape the state has right after `w` is
accepted). -/
def okA (w : Candidate) (s : ResolveState) : Prop :=
  s.highestRenderObject = some w ∧
  s.highestInputPriorityID = w.priorityID ∧
  s.highestRenderOrderID = w.renderOrderID

/-- Every candidate of `l` that passes its cheap check and differs from `w`
is strictly below `w` in the resolver's order: lower priority, or equal
priority and a numerically larger render-order id. -/
def belowAll (fromClick : Bool) (w : Candidate) (l : List Candidate) : Prop :=
  ∀ c ∈ l, pointerCheck fromClick c true = true → c ≠ w →
    (c.priorityID < w.priorityID ∨
      (c.priorityID = w.priorityID ∧ w.renderOrderID < c.renderOrderID))

instance (fromClick : Bool) (w : Candidate) (l : List Candidate) :
    Decidable (belowAll fromClick w l) := by
  unfold belowAll
  infer_instance

/-- A plain non-pixel-perfect candidate overlapping the pointer. -/
def candPlain (cid : Nat) (pr ro : Int) : Candidate where
  cid := cid
  priorityID := pr
  renderOrderID := ro
  pixelPerfect := false
  cheapDown := true
  cheapOver := true
  exactPass := true
  updateResult := true
  isDragged := false

/-- A pixel-perfect candidate overlapping the pointer. -/
def candPixel (cid : Nat) (pr ro : Int) : Candidate :=
  { candPlain cid pr ro with pixelPerfect := true }

/-- A sample input-manager context for concrete runs. -/
def sampleManager : InputManager where
  now := 1000
  multiInputOverride := OverrideMode.mouseTouchCombine
  currentPointers := 0
  inputX := 0
  inputY := 0
  tapRate := 200
  doubleTapRate := 300
  holdRate := 2000
  justPressedRate := 200
  justReleasedRate := 200
  recordPointerHistory := true
  recordRate := 100
  recordLimit := 3
  pollLocked := false
  paused := false
  mouseLocked := false
  interactiveItems := []
  moveCallbackCount := 0
  stageOffsetX := 0
  stageOffsetY := 0
  scaleX := 1
  scaleY := 1
  boundsX := 0
  boundsY := 0
  boundsW := 800
  boundsH := 600
  activePointerId := none

/-- A sample DOM event for concrete runs. -/
def sampleEvent : DomEvent where
  pointerId := none
  identifier := some 1
  target := none
  button := some 0
  clientX := 10
  clientY := 10
  pageX := 10
  pageY := 10
  screenX := 10
  screenY := 10
  movementX := 0
  movementY := 0

/-- A succeeding candidate whose priority sits below the resolver's initial
`-1` floor. -/
def cNeg : Candidate := candPlain 1 (-2) 3

/-- A pixel-perfect overlapping candidate, used to exhibit a visited but
unchecked candidate. -/
def cPix : Candidate := candPixel 4 0 1

/-- Witness candidates for the lexicographic-maximum run: `cw1b` has the
highest priority and sits in the middle of the traversal; `cw1c` has a middle
priority but fails its cheap test. -/
def cw1a : Candidate := candPlain 1 2 5

def cw1b : Candidate := candPlain 2 7 9

def cw1c : Candidate :=
  { candPlain 3 5 1 with cheapDown := false, cheapOver := false }

/-- Witness candidates for the exact-test claim: a cheap candidate whose
priority floor the pixel-perfect `cw2b` cannot beat. -/
def cw2a : Candidate := candPlain 1 5 2

def cw2b : Candidate := candPixel 2 1 9

/-- Witness candidates for the checked-flag claim. -/
def cw3a : Candidate := candPlain 1 3 4

def cw3b : Candidate := candPixel 2 5 1

def cw3c : Candidate := candPlain 3 1 7

/-- A pointer five time units into a press, for concrete release runs. -/
def pStop : Pointer :=
  { mkPointer 1 with isDown := true, isUp := false, timeDown := 995, withinGame := true }

/-- A context in which touch input overrides the mouse while another pointer
is active, so this pointer's signals are inactive. -/
def mNoTap : InputManager :=
  { sampleManager with
    multiInputOverride := OverrideMode.touchOverridesMouse, currentPointers := 1 }

/-- An active pointer with a full three-sample history, for concrete runs of
the recording stage. -/
def pFull : Pointer :=
  { pStop with
    active := true, history := [(1, 1), (2, 2), (3, 3)], positionX := 7, positionY := 8 }

theorem beats_iff (pr ro hiP hiR : Int) :
    beats pr ro hiP hiR = true ↔ (hiP < pr ∨ (pr = hiP ∧ ro < hiR)) := by
  simp [beats]

theorem beats_self (pr ro : Int) : beats pr ro pr ro = false := by
  simp [beats]

theorem beats_trans {a b c d e f : Int} (h1 : beats a b c d = true)
    (h2 : beats c d e f = true) : beats a b e f = true := by
  rw [beats_iff] at h1 h2 ⊢
  omega

theorem validForInput_beats {c : Candidate} {hiP hiR : Int} {inc : Bool}
    (h : validForInput c hiP hiR inc = true) :
    beats c.priorityID c.renderOrderID hiP hiR = true := by
  simp only [validForInput, Bool.and_eq_true] at h
  exact h.2

theorem beats_of_below {c w : Candidate}
    (h : c.priorityID < w.priorityID ∨
      (c.priorityID = w.priorityID ∧ w.renderOrderID < c.renderOrderID)) :
    beats w.priorityID w.renderOrderID c.priorityID c.renderOrderID = true := by
  rw [beats_iff]
  omega

theorem not_beats_of_below {c w : Candidate}
    (h : c.priorityID < w.priorityID ∨
      (c.priorityID = w.priorityID ∧ w.renderOrderID < c.renderOrderID)) :
    beats c.priorityID c.renderOrderID w.priorityID w.renderOrderID = false := by
  cases hb : beats c.priorityID c.renderOrderID w.priorityID w.renderOrderID
  · rfl
  · rw [beats_iff] at hb
    omega

theorem pointerCheck_fast_of_slow {f : Bool} {c : Candidate}
    (h : pointerCheck f c false = true) : pointerCheck f c true = true := by
  cases f <;>
    simp only [pointerCheck, checkPointerDown, checkPointerOver, Bool.false_and,
      Bool.true_and, Bool.not_false, Bool.not_true, Bool.false_or, Bool.or_false,
      Bool.and_eq_true, Bool.or_eq_true] at h ⊢ <;>
    tauto

theorem belowAll_tail {f : Bool} {w c : Candidate} {cs : List Candidate}
    (h : belowAll f w (c :: cs)) : belowAll f w cs :=
  fun d hd => h d (List.mem_cons_of_mem c hd)

theorem pass1_map_fst (f : Bool) :
    ∀ (l : List Candidate) (s : ResolveState), ((pass1 f s l).2.map Prod.fst) = l := by
  intro l
  induction l with
  | nil => intro s; simp [pass1]
  | cons c cs ih =>
    intro s
    cases hv : validForInput c s.highestInputPriorityID s.highestRenderOrderID false
    · simp [pass1, hv, ih]
    · cases hc : pointerCheck f c true
      · simp [pass1, hv, hc, ih]
      · simp [pass1, hv, hc, ih]

theorem pass1_length (f : Bool) (l : List Candidate) (s : ResolveState) :
    ((pass1 f s l).2).length = l.length := by
  have h := congrArg List.length (pass1_map_fst f l s)
  simpa using h

theorem pass1_append (f : Bool) :
    ∀ (a b : List Candidate) (s : ResolveState),
      pass1 f s (a ++ b) =
        ((pass1 f (pass1 f s a).1 b).1,
          (pass1 f s a).2 ++ (pass1 f (pass1 f s a).1 b).2) := by
  intro a
  induction a with
  | nil => intro b s; simp [pass1]
  | cons c cs ih =>
    intro b s
    cases hv : validForInput c s.highestInputPriorityID s.highestRenderOrderID false
    · simp [pass1, hv, ih]
    · cases hc : pointerCheck f c true
      · simp [pass1, hv, hc, ih]
      · simp [pass1, hv, hc, ih]

theorem pass1_cons_snd (f : Bool) (s : ResolveState) (c : Candidate) (t : List Candidate) :
    ∃ tail, (pass1 f s (c :: t)).2 =
      (c, validForInput c s.highestInputPriorityID s.highestRenderOrderID false) :: tail := by
  cases hv : validForInput c s.highestInputPriorityID s.highestRenderOrderID false
  · exact ⟨(pass1 f s t).2, by simp [pass1, hv]⟩
  · cases hc : pointerCheck f c true
    · exact ⟨(pass1 f s t).2, by simp [pass1, hv, hc]⟩
    · exact ⟨(pass1 f ⟨c.renderOrderID, c.priorityID, some c⟩ t).2, by simp [pass1, hv, hc]⟩

theorem get_after_append {α : Type} :
    ∀ (a : List α) (x : α) (b : List α), (a ++ x :: b)[a.length]? = some x := by
  intro a
  induction a with
  | nil => intro x b; simp
  | cons y ys ih => intro x b; simpa using ih x b

theorem pass1_keeps_best (f : Bool) (w : Candidate) :
    ∀ (l : List Candidate) (s : ResolveState),
      belowAll f w l → okA w s → okA w (pass1 f s l).1 := by
  intro l
  induction l with
  | nil => intro s _ hok; simpa [pass1] using hok
  | cons c cs ih =>
    intro s hb hok
    obtain ⟨ho, hp, hr⟩ := hok
    cases hv : validForInput c s.highestInputPriorityID s.highestRenderOrderID false
    · have h1 : (pass1 f s (c :: cs)).1 = (pass1 f s cs).1 := by simp [pass1, hv]
      rw [h1]
      exact ih s (belowAll_tail hb) ⟨ho, hp, hr⟩
    · cases hc : pointerCheck f c true
      · have h1 : (pass1 f s (c :: cs)).1 = (pass1 f s cs).1 := by simp [pass1, hv, hc]
        rw [h1]
        exact ih s (belowAll_tail hb) ⟨ho, hp, hr⟩
      · exfalso
        have hbt := validForInput_beats hv
        rw [hp, hr] at hbt
        have hne : c ≠ w := by
          intro he
          rw [he, beats_self] at hbt
          cases hbt
        have hbel := hb c (List.mem_cons_self c cs) hc hne
        rw [not_beats_of_below hbel] at hbt
        cases hbt

theorem pass1_selects (f : Bool) (w : Candidate) :
    ∀ (l : List Candidate) (s : ResolveState),
      belowAll f w l → pointerCheck f w true = true → w.pixelPerfect = false →
      w ∈ l →
      beats w.priorityID w.renderOrderID s.highestInputPriorityID s.highestRenderOrderID = true →
      okA w (pass1 f s l).1 := by
  intro l
  induction l with
  | nil => intro s _ _ _ hmem _; exact absurd hmem (List.not_mem_nil w)
  | cons c cs ih =>
    intro s hb hw hpx hmem hbs
    by_cases hcw : c = w
    · subst hcw
      have hv : validForInput c s.highestInputPriorityID s.highestRenderOrderID false = true := by
        simp only [validForInput, Bool.and_eq_true]
        exact ⟨by simp [hpx], hbs⟩
      have h1 : (pass1 f s (c :: cs)).1 =
          (pass1 f ⟨c.renderOrderID, c.priorityID, some c⟩ cs).1 := by
        simp [pass1, hv, hw]
      rw [h1]
      exact pass1_keeps_best f c cs _ (belowAll_tail hb) ⟨rfl, rfl, rfl⟩
    · have hmem2 : w ∈ cs := by
        cases List.mem_cons.mp hmem with
        | inl h => exact absurd h.symm hcw
        | inr h => exact h
      cases hv : validForInput c s.highestInputPriorityID s.highestRenderOrderID false
      · have h1 : (pass1 f s (c :: cs)).1 = (pass1 f s cs).1 := by simp [pass1, hv]
        rw [h1]
        exact ih s (belowAll_tail hb) hw hpx hmem2 hbs
      · cases hc : pointerCheck f c true
        · have h1 : (pass1 f s (c :: cs)).1 = (pass1 f s cs).1 := by simp [pass1, hv, hc]
          rw [h1]
          exact ih s (belowAll_tail hb) hw hpx hmem2 hbs
        · have hbel := hb c (List.mem_cons_self c cs) hc hcw
          have hbw := beats_of_below hbel
          have h1 : (pass1 f s (c :: cs)).1 =
              (pass1 f ⟨c.renderOrderID, c.priorityID, some c⟩ cs).1 := by
            simp [pass1, hv, hc]
          rw [h1]
          exact ih _ (belowAll_tail hb) hw hpx hmem2 hbw

theorem pass2_keeps_best (f : Bool) (w : Candidate) :
    ∀ (fl : List (Candidate × Bool)) (s : ResolveState),
      belowAll f w (fl.map Prod.fst) → okA w s → okA w (pass2 f s fl).1 := by
  intro fl
  induction fl with
  | nil => intro s _ hok; simpa [pass2] using hok
  | cons pr rest ih =>
    intro s hb hok
    obtain ⟨d, chk⟩ := pr
    obtain ⟨ho, hp, hr⟩ := hok
    have hbt : belowAll f w (rest.map Prod.fst) :=
      fun e he => hb e (List.mem_cons_of_mem d he)
    cases hg : (!chk && validForInput d s.highestInputPriorityID s.highestRenderOrderID true)
    · have h1 : (pass2 f s ((d, chk) :: rest)).1 = (pass2 f s rest).1 := by simp [pass2, hg]
      rw [h1]
      exact ih s hbt ⟨ho, hp, hr⟩
    · cases hc : pointerCheck f d false
      · have h1 : (pass2 f s ((d, chk) :: rest)).1 = (pass2 f s rest).1 := by
          simp [pass2, hg, hc]
        rw [h1]
        exact ih s hbt ⟨ho, hp, hr⟩
      · exfalso
        have hvd : validForInput d s.highestInputPriorityID s.highestRenderOrderID true = true := by
          simp only [Bool.and_eq_true] at hg
          exact hg.2
        have hbd := validForInput_beats hvd
        rw [hp, hr] at hbd
        have hne : d ≠ w := by
          intro he
          rw [he, beats_self] at hbd
          cases hbd
        have hbel := hb d (List.mem_cons_self d (rest.map Prod.fst))
          (pointerCheck_fast_of_slow hc) hne
        rw [not_beats_of_below hbel] at hbd
        cases hbd

theorem pass2_not_invoked (f : Bool) (c : Candidate) :
    ∀ (fl : List (Candidate × Bool)) (s : ResolveState),
      beats c.priorityID c.renderOrderID s.highestInputPriorityID s.highestRenderOrderID = false →
      c ∉ (pass2 f s fl).2 := by
  intro fl
  induction fl with
  | nil => intro s _; simp [pass2]
  | cons pr rest ih =>
    intro s hbf
    obtain ⟨d, chk⟩ := pr
    cases hg : (!chk && validForInput d s.highestInputPriorityID s.highestRenderOrderID true)
    · have h1 : (pass2 f s ((d, chk) :: rest)).2 = (pass2 f s rest).2 := by simp [pass2, hg]
      rw [h1]
      exact ih s hbf
    · have hvd : validForInput d s.highestInputPriorityID s.highestRenderOrderID true = true := by
        simp only [Bool.and_eq_true] at hg
        exact hg.2
      have hbd := validForInput_beats hvd
      have hne : c ≠ d := by
        intro he
        rw [← he] at hbd
        rw [hbf] at hbd
        cases hbd
      cases hc : pointerCheck f d false
      · have h1 : (pass2 f s ((d, chk) :: rest)).2 = d :: (pass2 f s rest).2 := by
          simp [pass2, hg, hc]
        rw [h1]
        intro hmem
        cases List.mem_cons.mp hmem with
        | inl h => exact hne h
        | inr h => exact ih s hbf h
      · have hbf2 : beats c.priorityID c.renderOrderID d.priorityID d.renderOrderID = false := by
          cases hx : beats c.priorityID c.renderOrderID d.priorityID d.renderOrderID
          · rfl
          · have h3 := beats_trans hx hbd
            rw [hbf] at h3
            cases h3
        have h1 : (pass2 f s ((d, chk) :: rest)).2 =
            d :: (pass2 f ⟨d.renderOrderID, d.priorityID, some d⟩ rest).2 := by
          simp [pass2, hg, hc]
        rw [h1]
        intro hmem
        cases List.mem_cons.mp hmem with
        | inl h => exact hne h
        | inr h => exact ih _ hbf2 h

theorem pass2_count_le (f : Bool) (c : Candidate) :
    ∀ (fl : List (Candidate × Bool)) (s : ResolveState),
      ((pass2 f s fl).2).count c ≤ (fl.map Prod.fst).count c := by
  intro fl
  induction fl with
  | nil => intro s; simp [pass2]
  | cons pr rest ih =>
    intro s
    obtain ⟨d, chk⟩ := pr
    have hmapc : ((d, chk) :: rest).map Prod.fst = d :: rest.map Prod.fst := rfl
    cases hg : (!chk && validForInput d s.highestInputPriorityID s.highestRenderOrderID true)
    · have h1 : (pass2 f s ((d, chk) :: rest)).2 = (pass2 f s rest).2 := by simp [pass2, hg]
      rw [h1, hmapc, List.count_cons]
      have h2 := ih s
      cases hcd : (d == c) <;> simp [hcd] <;> omega
    · cases hc : pointerCheck f d false
      · have h1 : (pass2 f s ((d, chk) :: rest)).2 = d :: (pass2 f s rest).2 := by
          simp [pass2, hg, hc]
        rw [h1, hmapc, List.count_cons, List.count_cons]
        have h2 := ih s
        cases hcd : (d == c) <;> simp [hcd] <;> omega
      · have h1 : (pass2 f s ((d, chk) :: rest)).2 =
            d :: (pass2 f ⟨d.renderOrderID, d.priorityID, some d⟩ rest).2 := by
          simp [pass2, hg, hc]
        rw [h1, hmapc, List.count_cons, List.count_cons]
        have h2 := ih (⟨d.renderOrderID, d.priorityID, some d⟩ : ResolveState)
        cases hcd : (d == c) <;> simp [hcd] <;> omega

theorem pass2_invoked_unchecked (f : Bool) (c : Candidate) :
    ∀ (fl : List (Candidate × Bool)) (s : ResolveState),
      c ∈ (pass2 f s fl).2 → (c, false) ∈ fl := by
  intro fl
  induction fl with
  | nil => intro s h; simp [pass2] at h
  | cons pr rest ih =>
    intro s h
    obtain ⟨d, chk⟩ := pr
    cases hg : (!chk && validForInput d s.highestInputPriorityID s.highestRenderOrderID true)
    · have h1 : (pass2 f s ((d, chk) :: rest)).2 = (pass2 f s rest).2 := by simp [pass2, hg]
      rw [h1] at h
      exact List.mem_cons_of_mem _ (ih s h)
    · have hchk : chk = false := by
        cases chk
        · rfl
        · simp at hg
      subst hchk
      simp only [Bool.not_false, Bool.true_and] at hg
      cases hc : pointerCheck f d false
      · have h1 : (pass2 f s ((d, false) :: rest)).2 = d :: (pass2 f s rest).2 := by
          simp [pass2, hg, hc]
        rw [h1] at h
        cases List.mem_cons.mp h with
        | inl he => rw [he]; exact List.mem_cons_self _ _
        | inr hm => exact List.mem_cons_of_mem _ (ih s hm)
      · have h1 : (pass2 f s ((d, false) :: rest)).2 =
            d :: (pass2 f ⟨d.renderOrderID, d.priorityID, some d⟩ rest).2 := by
          simp [pass2, hg, hc]
        rw [h1] at h
        cases List.mem_cons.mp h with
        | inl he => rw [he]; exact List.mem_cons_self _ _
        | inr hm => exact List.mem_cons_of_mem _ (ih _ hm)

theorem flag_unique :
    ∀ (fl : List (Candidate × Bool)) (d : Candidate) (b1 b2 : Bool),
      (fl.map Prod.fst).Nodup → (d, b1) ∈ fl → (d, b2) ∈ fl → b1 = b2 := by
  intro fl
  induction fl with
  | nil => intro d b1 b2 _ h1 _; simp at h1
  | cons pr rest ih =>
    intro d b1 b2 hn h1 h2
    rw [List.map_cons, List.nodup_cons] at hn
    obtain ⟨hn1, hn2⟩ := hn
    cases List.mem_cons.mp h1 with
    | inl he1 =>
      cases List.mem_cons.mp h2 with
      | inl he2 => exact congrArg Prod.snd (he1.trans he2.symm)
      | inr hm2 =>
        exfalso
        apply hn1
        rw [← he1]
        show d ∈ rest.map Prod.fst
        exact List.mem_map_of_mem Prod.fst hm2
    | inr hm1 =>
      cases List.mem_cons.mp h2 with
      | inl he2 =>
        exfalso
        apply hn1
        rw [← he2]
        show d ∈ rest.map Prod.fst
        exact List.mem_map_of_mem Prod.fst hm1
      | inr hm2 => exact ih d b1 b2 hn2 hm1 hm2

theorem process_timeDown (p : Pointer) (l : List Candidate) (f : Bool) :
    (processInteractiveObjects p l f).1.timeDown = p.timeDown := rfl

theorem process_msSinceLastClick (p : Pointer) (l : List Candidate) (f : Bool) :
    (processInteractiveObjects p l f).1.msSinceLastClick = p.msSinceLastClick := rfl

theorem process_isDown (p : Pointer) (l : List Candidate) (f : Bool) :
    (processInteractiveObjects p l f).1.isDown = p.isDown := rfl

theorem process_isUp (p : Pointer) (l : List Candidate) (f : Bool) :
    (processInteractiveObjects p l f).1.isUp = p.isUp := rfl

theorem process_history (p : Pointer) (l : List Candidate) (f : Bool) :
    (processInteractiveObjects p l f).1.history = p.history := rfl

theorem process_active (p : Pointer) (l : List Candidate) (f : Bool) :
    (processInteractiveObjects p l f).1.active = p.active := rfl

theorem process_nextDrop (p : Pointer) (l : List Candidate) (f : Bool) :
    (processInteractiveObjects p l f).1.nextDrop = p.nextDrop := rfl

theorem process_positionX (p : Pointer) (l : List Candidate) (f : Bool) :
    (processInteractiveObjects p l f).1.positionX = p.positionX := rfl

theorem process_positionY (p : Pointer) (l : List Candidate) (f : Bool) :
    (processInteractiveObjects p l f).1.positionY = p.positionY := rfl

theorem process_holdSent (p : Pointer) (l : List Candidate) (f : Bool) :
    (processInteractiveObjects p l f).1.holdSent = p.holdSent := rfl

theorem movePosition_preserves (p : Pointer) (m : InputManager) (ev : DomEvent) (f : Bool) :
    (movePosition p m ev f).timeDown = p.timeDown ∧
    (movePosition p m ev f).timeUp = p.timeUp ∧
    (movePosition p m ev f).msSinceLastClick = p.msSinceLastClick ∧
    (movePosition p m ev f).previousTapTime = p.previousTapTime ∧
    (movePosition p m ev f).isDown = p.isDown ∧
    (movePosition p m ev f).isUp = p.isUp ∧
    (movePosition p m ev f).history = p.history ∧
    (movePosition p m ev f).totalTouches = p.totalTouches ∧
    (movePosition p m ev f).stateReset = p.stateReset ∧
    (movePosition p m ev f).isMouse = p.isMouse ∧
    (movePosition p m ev f).active = p.active ∧
    (movePosition p m ev f).holdSent = p.holdSent := by
  by_cases hb : ev.button.isSome = true <;>
    by_cases hm : (p.isMouse && m.mouseLocked && !f) = true <;>
      simp [movePosition, hb, hm]

/-- The pointer returned by `move` is either the input (poll-locked early
exit) or the coordinate-updated pointer with some value in `targetObject`. -/
theorem move_shape (p : Pointer) (m : InputManager) (ev : DomEvent) (f : Bool) :
    (move p m ev f).1 = p ∨
    ∃ t : Option Candidate,
      (move p m ev f).1 = { movePosition p m ev f with targetObject := t } := by
  unfold move moveHitTest processInteractiveObjects
  split
  · left; rfl
  · right
    split
    all_goals
      dsimp only
      split
      · exact ⟨(movePosition p m ev f).targetObject, rfl⟩
      · split
        · split
          · split
            · exact ⟨(movePosition p m ev f).targetObject, rfl⟩
            · exact ⟨none, rfl⟩
          · split
            · exact ⟨_, rfl⟩
            · exact ⟨(movePosition p m ev f).targetObject, rfl⟩
        · split
          · exact ⟨_, rfl⟩
          · exact ⟨(movePosition p m ev f).targetObject, rfl⟩

theorem move_timeDown (p : Pointer) (m : InputManager) (ev : DomEvent) (f : Bool) :
    (move p m ev f).1.timeDown = p.timeDown := by
  rcases move_shape p m ev f with h | ⟨t, h⟩
  · rw [h]
  · rw [h]; exact (movePosition_preserves p m ev f).1

theorem move_msSinceLastClick (p : Pointer) (m : InputManager) (ev : DomEvent) (f : Bool) :
    (move p m ev f).1.msSinceLastClick = p.msSinceLastClick := by
  rcases move_shape p m ev f with h | ⟨t, h⟩
  · rw [h]
  · rw [h]; exact (movePosition_preserves p m ev f).2.2.1

theorem move_isDown (p : Pointer) (m : InputManager) (ev : DomEvent) (f : Bool) :
    (move p m ev f).1.isDown = p.isDown := by
  rcases move_shape p m ev f with h | ⟨t, h⟩
  · rw [h]
  · rw [h]; exact (movePosition_preserves p m ev f).2.2.2.2.1

theorem move_isUp (p : Pointer) (m : InputManager) (ev : DomEvent) (f : Bool) :
    (move p m ev f).1.isUp = p.isUp := by
  rcases move_shape p m ev f with h | ⟨t, h⟩
  · rw [h]
  · rw [h]; exact (movePosition_preserves p m ev f).2.2.2.2.2.1

theorem move_history (p : Pointer) (m : InputManager) (ev : DomEvent) (f : Bool) :
    (move p m ev f).1.history = p.history := by
  rcases move_shape p m ev f with h | ⟨t, h⟩
  · rw [h]
  · rw [h]; exact (movePosition_preserves p m ev f).2.2.2.2.2.2.1

theorem onTap_not_released (l : List Candidate) (b : Bool) :
    Event.onTap b ∉ l.map fun c => Event.released c.cid := by
  intro h
  simp [List.mem_map] at h

theorem start_history (p : Pointer) (m : InputManager) (ev : DomEvent) :
    (start p m ev).1.history = [] := by
  simp [start, move_history]

theorem updateDirty_preserves (p : Pointer) (m : InputManager) :
    (updateDirty p m).1.isDown = p.isDown ∧
    (updateDirty p m).1.isUp = p.isUp ∧
    (updateDirty p m).1.history = p.history ∧
    (updateDirty p m).1.nextDrop = p.nextDrop ∧
    (updateDirty p m).1.positionX = p.positionX ∧
    (updateDirty p m).1.positionY = p.positionY := by
  unfold updateDirty
  split
  · split <;> exact ⟨rfl, rfl, rfl, rfl, rfl, rfl⟩
  · exact ⟨rfl, rfl, rfl, rfl, rfl, rfl⟩

theorem updateHold_preserves (p : Pointer) (m : InputManager) :
    (updateHold p m).1.isDown = p.isDown ∧
    (updateHold p m).1.isUp = p.isUp ∧
    (updateHold p m).1.history = p.history ∧
    (updateHold p m).1.nextDrop = p.nextDrop ∧
    (updateHold p m).1.positionX = p.positionX ∧
    (updateHold p m).1.positionY = p.positionY := by
  unfold updateHold
  split <;> exact ⟨rfl, rfl, rfl, rfl, rfl, rfl⟩

theorem updateHistory_preserves (p : Pointer) (m : InputManager) :
    (updateHistory p m).isDown = p.isDown ∧ (updateHistory p m).isUp = p.isUp := by
  unfold updateHistory
  split <;> exact ⟨rfl, rfl⟩

theorem updateHistory_history (p : Pointer) (m : InputManager) :
    (updateHistory p m).history =
      if m.recordPointerHistory = true ∧ m.now ≥ p.nextDrop then
        (if p.history.length + 1 > m.recordLimit then
          (p.history ++ [(p.positionX, p.positionY)]).tail
        else p.history ++ [(p.positionX, p.positionY)])
      else p.history := by
  unfold updateHistory
  split
  · simp [List.length_append]
  · rfl

theorem update_isDown (p : Pointer) (m : InputManager) :
    (update p m).1.isDown = p.isDown := by
  unfold update
  split
  · rfl
  · show (updateHistory (updateHold (updateDirty p m).1 m).1 m).isDown = p.isDown
    rw [(updateHistory_preserves _ m).1, (updateHold_preserves _ m).1,
      (updateDirty_preserves p m).1]

theorem update_isUp (p : Pointer) (m : InputManager) :
    (update p m).1.isUp = p.isUp := by
  unfold update
  split
  · rfl
  · show (updateHistory (updateHold (updateDirty p m).1 m).1 m).isUp = p.isUp
    rw [(updateHistory_preserves _ m).2, (updateHold_preserves _ m).2.1,
      (updateDirty_preserves p m).2.1]

theorem update_history (p : Pointer) (m : InputManager) (ha : p.active = true) :
    (update p m).1.history =
      if m.recordPointerHistory = true ∧ m.now ≥ p.nextDrop then
        (if p.history.length + 1 > m.recordLimit then
          (p.history ++ [(p.positionX, p.positionY)]).tail
        else p.history ++ [(p.positionX, p.positionY)])
      else p.history := by
  unfold update
  rw [if_neg (by simp [ha])]
  show (updateHistory (updateHold (updateDirty p m).1 m).1 m).history = _
  rw [updateHistory_history,
    (updateHold_preserves _ m).2.2.1, (updateHold_preserves _ m).2.2.2.1,
    (updateHold_preserves _ m).2.2.2.2.1, (updateHold_preserves _ m).2.2.2.2.2,
    (updateDirty_preserves p m).2.2.1, (updateDirty_preserves p m).2.2.2.1,
    (updateDirty_preserves p m).2.2.2.2.1, (updateDirty_preserves p m).2.2.2.2.2]

theorem stopTap_events (p : Pointer) (m : InputManager) (hov : overrideActive m = true) :
    ((0 ≤ duration p m ∧ duration p m ≤ m.tapRate) →
      (stopTap p m).2 =
        [Event.onUp, Event.onTap (decide (p.timeUp - p.previousTapTime < m.doubleTapRate))]) ∧
    (¬(0 ≤ duration p m ∧ duration p m ≤ m.tapRate) → (stopTap p m).2 = [Event.onUp]) := by
  unfold stopTap
  rw [if_pos hov]
  constructor
  · intro hh; rw [if_pos hh]
  · intro hh; rw [if_neg hh]

theorem stopTap_prevTap (p : Pointer) (m : InputManager) (hov : overrideActive m = true) :
    ((0 ≤ duration p m ∧ duration p m ≤ m.tapRate) →
      (stopTap p m).1.previousTapTime = p.timeUp) ∧
    (¬(0 ≤ duration p m ∧ duration p m ≤ m.tapRate) →
      (stopTap p m).1.previousTapTime = p.previousTapTime) := by
  unfold stopTap
  rw [if_pos hov]
  constructor
  · intro hh; rw [if_pos hh]
  · intro hh; rw [if_neg hh]

theorem stop_components (p : Pointer) (m : InputManager) (ev : DomEvent)
    (hsr : p.stateReset = false) :
    (stop p m ev).2.2 =
      (stopTap { p with timeUp := m.now } m).2 ++
        m.interactiveItems.map (fun c => Event.released c.cid) ∧
    (stop p m ev).1.previousTapTime =
      (stopTap { p with timeUp := m.now } m).1.previousTapTime := by
  unfold stop
  rw [if_neg (by simp [hsr])]
  constructor
  · rfl
  · dsimp only
    split <;> rfl

/-- Claim C1, as amended: for a resolution call whose candidates all have
nonnegative priorities and none of which requires an exact test, the two-pass
scan selects as `_highestRenderObject` the candidate `w` that succeeds its
cheap overlap test (`checkPointerDown` when `fromClick`, `checkPointerOver`
otherwise) and above which no other succeeding candidate sits in the
resolver's order (strictly higher priority, ties broken in favour of the
numerically lower render-order id) — a characterisation independent of the
traversal order.  `targetObject` is then assigned this winner, except that
when the winner was already the target and the target's per-frame `update`
returns `false`, `targetObject` is cleared instead. -/
theorem processInteractiveObjects_lex_max
    (p : Pointer) (l : List Candidate) (f : Bool) (w : Candidate)
    (hpx : ∀ c ∈ l, c.pixelPerfect = false)
    (hnn : ∀ c ∈ l, 0 ≤ c.priorityID)
    (hw : w ∈ l)
    (hwc : pointerCheck f w true = true)
    (hmax : belowAll f w l) :
    resolveWinner l f = some w ∧
    ((processInteractiveObjects p l f).1.targetObject = some w ∨
      (p.targetObject = some w ∧ w.updateResult = false ∧
        (processInteractiveObjects p l f).1.targetObject = none)) := by
  have hwpx := hpx w hw
  have hw0 := hnn w hw
  have hbs : beats w.priorityID w.renderOrderID initResolveState.highestInputPriorityID
      initResolveState.highestRenderOrderID = true := by
    rw [beats_iff]
    left
    show (initResolveState.highestInputPriorityID : Int) < w.priorityID
    simp only [initResolveState]
    omega
  have h1 := pass1_selects f w l initResolveState hmax hwc hwpx hw hbs
  have h2 : okA w (resolvePasses l f).1 := by
    show okA w (pass2 f (pass1 f initResolveState l).1 (pass1 f initResolveState l).2).1
    exact pass2_keeps_best f w _ _ (by rw [pass1_map_fst]; exact hmax) h1
  obtain ⟨ho, _, _⟩ := h2
  constructor
  · exact ho
  · simp only [processInteractiveObjects]
    rw [ho]
    cases hpt : p.targetObject with
    | none => left; simp [resolveTarget, hpt]
    | some t =>
      by_cases htw : t = w
      · subst htw
        cases hu : t.updateResult
        · right
          exact ⟨rfl, rfl, by simp [resolveTarget, hu]⟩
        · left
          simp [resolveTarget, hpt, hu]
      · left
        simp [resolveTarget, hpt, htw]

/-- Claim C1 counterexample: a single non-pixel-perfect candidate whose
cheap overlap test succeeds, with priority `-2`.  It is trivially the
strictly-highest-priority succeeding candidate, yet the resolution leaves
both the winner and `targetObject` empty, because the scan's initial priority
floor is `-1`. -/
theorem claim1_counterexample :
    pointerCheck false cNeg true = true ∧
    cNeg.pixelPerfect = false ∧
    resolveWinner [cNeg] false = none ∧
    (processInteractiveObjects (mkPointer 1) [cNeg] false).1.targetObject = none := by
  decide

/-- Claim C1 witness: three candidates with distinct nonnegative priorities,
the winner placed mid-traversal. -/
theorem processInteractiveObjects_lex_max_witness :
    ((∀ c ∈ [cw1a, cw1b, cw1c], c.pixelPerfect = false) ∧
      (∀ c ∈ [cw1a, cw1b, cw1c], 0 ≤ c.priorityID) ∧
      cw1b ∈ [cw1a, cw1b, cw1c] ∧
      pointerCheck false cw1b true = true ∧
      belowAll false cw1b [cw1a, cw1b, cw1c]) ∧
    (resolveWinner [cw1a, cw1b, cw1c] false = some cw1b ∧
      ((processInteractiveObjects (mkPointer 1) [cw1a, cw1b, cw1c] false).1.targetObject =
          some cw1b ∨
        ((mkPointer 1).targetObject = some cw1b ∧ cw1b.updateResult = false ∧
          (processInteractiveObjects (mkPointer 1) [cw1a, cw1b, cw1c] false).1.targetObject =
            none))) :=
  ⟨⟨by decide, by decide, by decide, by decide, by decide⟩,
    processInteractiveObjects_lex_max (mkPointer 1) [cw1a, cw1b, cw1c] false cw1b
      (by decide) (by decide) (by decide) (by decide) (by decide)⟩

/-- Claim C2: within one resolution call over a traversal without duplicate
nodes, the slow check that can invoke a candidate's exact test is executed at
most once per candidate, and never when the candidate fails `validForInput`
against the floor established at the end of the cheap pass (the floor only
rises during pass 2). -/
theorem exactTest_at_most_once (l : List Candidate) (f : Bool) (c : Candidate)
    (hn : l.Nodup) :
    (resolveInvocations l f).count c ≤ 1 ∧
    (validForInput c (pass1 f initResolveState l).1.highestInputPriorityID
        (pass1 f initResolveState l).1.highestRenderOrderID true = false →
      c ∉ resolveInvocations l f) := by
  constructor
  · have h1 := pass2_count_le f c (pass1 f initResolveState l).2 (pass1 f initResolveState l).1
    rw [pass1_map_fst] at h1
    have h2 := List.nodup_iff_count_le_one.mp hn c
    have heq : resolveInvocations l f =
        (pass2 f (pass1 f initResolveState l).1 (pass1 f initResolveState l).2).2 := rfl
    rw [heq]
    omega
  · intro hv
    have hbf : beats c.priorityID c.renderOrderID
        (pass1 f initResolveState l).1.highestInputPriorityID
        (pass1 f initResolveState l).1.highestRenderOrderID = false := by
      simp only [validForInput, Bool.true_or, Bool.true_and] at hv
      exact hv
    exact pass2_not_invoked f c (pass1 f initResolveState l).2 (pass1 f initResolveState l).1 hbf

/-- Claim C2 witness: a cheap candidate with priority 5 establishes a floor
the pixel-perfect candidate of priority 1 cannot beat, so the latter's exact
test is never invoked. -/
theorem exactTest_at_most_once_witness :
    ([cw2a, cw2b].Nodup ∧
      validForInput cw2b (pass1 false initResolveState [cw2a, cw2b]).1.highestInputPriorityID
        (pass1 false initResolveState [cw2a, cw2b]).1.highestRenderOrderID true = false) ∧
    ((resolveInvocations [cw2a, cw2b] false).count cw2b ≤ 1 ∧
      cw2b ∉ resolveInvocations [cw2a, cw2b] false) :=
  ⟨⟨by decide, by decide⟩,
    (exactTest_at_most_once [cw2a, cw2b] false cw2b (by decide)).1,
    (exactTest_at_most_once [cw2a, cw2b] false cw2b (by decide)).2 (by decide)⟩

/-- Claim C3, as amended: during pass 1 the `checked` flag of the candidate
at any position is set exactly when that candidate passes the pass-1
`validForInput` eligibility test against the floor accumulated over the
preceding candidates — in particular it does not depend on the outcome of
the candidate's own overlap test, but a candidate failing the eligibility
test (for example any pixel-perfect candidate) is left unchecked.  Pass 2
executes no check on a candidate flagged by pass 1. -/
theorem pass1_checked_spec (f : Bool) (l₁ l₂ : List Candidate) (c : Candidate)
    (hn : (l₁ ++ c :: l₂).Nodup) :
    ((pass1 f initResolveState (l₁ ++ c :: l₂)).2.map Prod.snd)[l₁.length]? =
      some (validForInput c (pass1 f initResolveState l₁).1.highestInputPriorityID
        (pass1 f initResolveState l₁).1.highestRenderOrderID false) ∧
    (∀ d b, (d, b) ∈ (pass1 f initResolveState (l₁ ++ c :: l₂)).2 → b = true →
      d ∉ resolveInvocations (l₁ ++ c :: l₂) f) := by
  constructor
  · have h2 : (pass1 f initResolveState (l₁ ++ c :: l₂)).2 =
        (pass1 f initResolveState l₁).2 ++
          (pass1 f (pass1 f initResolveState l₁).1 (c :: l₂)).2 := by
      rw [pass1_append]
    obtain ⟨tail, htail⟩ := pass1_cons_snd f (pass1 f initResolveState l₁).1 c l₂
    rw [h2, htail, List.map_append, List.map_cons]
    have hlen : ((pass1 f initResolveState l₁).2.map Prod.snd).length = l₁.length := by
      rw [List.length_map, pass1_length]
    rw [← hlen]
    exact get_after_append _ _ _
  · intro d b hmem hb
    subst hb
    intro hinv
    have h1 := pass2_invoked_unchecked f d
      (pass1 f initResolveState (l₁ ++ c :: l₂)).2
      (pass1 f initResolveState (l₁ ++ c :: l₂)).1 hinv
    have h2 : ((pass1 f initResolveState (l₁ ++ c :: l₂)).2.map Prod.fst).Nodup := by
      rw [pass1_map_fst]
      exact hn
    have h3 := flag_unique (pass1 f initResolveState (l₁ ++ c :: l₂)).2 d true false h2 hmem h1
    cases h3

/-- Claim C3 counterexample: a single pixel-perfect overlapping candidate is
visited by pass 1 but its `checked` flag stays `false` (the claim predicts
`true` for every visited candidate; were it true, pass 2 could never run an
exact test). -/
theorem claim3_counterexample :
    cPix.pixelPerfect = true ∧
    (pass1 false initResolveState [cPix]).2 = [(cPix, false)] := by
  decide

/-- Claim C3 witness: the pixel-perfect candidate in the middle of a
three-candidate traversal gets the flag its visit-time `validForInput`
outcome dictates. -/
theorem pass1_checked_spec_witness :
    ([cw3a] ++ cw3b :: [cw3c]).Nodup ∧
    ((pass1 false initResolveState ([cw3a] ++ cw3b :: [cw3c])).2.map
        Prod.snd)[([cw3a] : List Candidate).length]? =
      some (validForInput cw3b
        (pass1 false initResolveState [cw3a]).1.highestInputPriorityID
        (pass1 false initResolveState [cw3a]).1.highestRenderOrderID false) :=
  ⟨by decide, (pass1_checked_spec false [cw3a] [cw3c] cw3b (by decide)).1⟩

/-- Claim C4: for every resolution call, the notification tail emits exactly
one of the five patterns — nothing, `pointerOver` on the new target,
`pointerOut` on the old target, `pointerOut` on the old then `pointerOver`
on the new, or the per-frame update of the unchanged target (the five cases
are mutually exclusive: they differ in the previous/new target shape or in
the emitted list) — and writes `targetObject` at most once; the events of
`processInteractiveObjects` are exactly those of this tail applied to the
previous target and the two-pass winner. -/
theorem resolveTarget_patterns (prev best : Option Candidate)
    (p : Pointer) (l : List Candidate) (f : Bool) :
    ((resolveTarget prev best).2.2.length ≤ 1) ∧
    ((prev = none ∧ best = none ∧ (resolveTarget prev best).2.1 = [] ∧
        (resolveTarget prev best).1 = none) ∨
      (∃ w, prev = none ∧ best = some w ∧
        (resolveTarget prev best).2.1 = [Event.pointerOver w.cid] ∧
        (resolveTarget prev best).1 = some w) ∨
      (∃ t, prev = some t ∧ best = none ∧
        (resolveTarget prev best).2.1 = [Event.pointerOut t.cid] ∧
        (resolveTarget prev best).1 = none) ∨
      (∃ t, prev = some t ∧ best = some t ∧
        (resolveTarget prev best).2.1 = [Event.targetUpdate t.cid]) ∨
      (∃ t w, prev = some t ∧ best = some w ∧ t ≠ w ∧
        (resolveTarget prev best).2.1 = [Event.pointerOut t.cid, Event.pointerOver w.cid] ∧
        (resolveTarget prev best).1 = some w)) ∧
    (processInteractiveObjects p l f).2.1 =
      (resolveTarget p.targetObject (resolveWinner l f)).2.1 := by
  refine ⟨?_, ?_, rfl⟩
  · cases best with
    | none => cases prev <;> simp [resolveTarget]
    | some b =>
      cases prev with
      | none => simp [resolveTarget]
      | some t =>
        by_cases htb : t = b
        · subst htb
          cases hu : t.updateResult <;> simp [resolveTarget, hu]
        · simp [resolveTarget, htb]
  · cases best with
    | none =>
      cases prev with
      | none => left; simp [resolveTarget]
      | some t =>
        right; right; left
        exact ⟨t, rfl, rfl, by simp [resolveTarget], by simp [resolveTarget]⟩
    | some b =>
      cases prev with
      | none =>
        right; left
        exact ⟨b, rfl, rfl, by simp [resolveTarget], by simp [resolveTarget]⟩
      | some t =>
        by_cases htb : t = b
        · subst htb
          right; right; right; left
          exact ⟨t, rfl, rfl, by cases hu : t.updateResult <;> simp [resolveTarget, hu]⟩
        · right; right; right; right
          exact ⟨t, b, rfl, rfl, htb, by simp [resolveTarget, htb], by simp [resolveTarget, htb]⟩

/-- Claim C5, as amended: for every release (`stop`) call that is not
suppressed by `_stateReset` and for which the override policy makes this
pointer's signals active, a press-to-release duration within `[0, tapRate]`
yields exactly one tap signal, dispatched as a double tap iff
`timeUp - previousTapTime < doubleTapRate` (with `timeUp = now`), and
`previousTapTime` is then set to `timeUp`; outside the window no tap signal
fires and `previousTapTime` is unchanged. -/
theorem stop_tap_spec (p : Pointer) (m : InputManager) (ev : DomEvent)
    (hsr : p.stateReset = false) (hov : overrideActive m = true) :
    ((0 ≤ duration p m ∧ duration p m ≤ m.tapRate) →
      (Event.onTap (decide (m.now - p.previousTapTime < m.doubleTapRate)) ∈ (stop p m ev).2.2 ∧
        (∀ b, Event.onTap b ∈ (stop p m ev).2.2 →
          b = decide (m.now - p.previousTapTime < m.doubleTapRate)) ∧
        (stop p m ev).1.previousTapTime = m.now)) ∧
    (¬(0 ≤ duration p m ∧ duration p m ≤ m.tapRate) →
      ((∀ b, Event.onTap b ∉ (stop p m ev).2.2) ∧
        (stop p m ev).1.previousTapTime = p.previousTapTime)) := by
  obtain ⟨hev, hprev⟩ := stop_components p m ev hsr
  have hdur : duration { p with timeUp := m.now } m = duration p m := rfl
  constructor
  · intro hin
    have hin1 : 0 ≤ duration { p with timeUp := m.now } m ∧
        duration { p with timeUp := m.now } m ≤ m.tapRate := by rw [hdur]; exact hin
    have he := (stopTap_events { p with timeUp := m.now } m hov).1 hin1
    have hp := (stopTap_prevTap { p with timeUp := m.now } m hov).1 hin1
    refine ⟨?_, ?_, ?_⟩
    · rw [hev, he]
      simp
    · intro b hb
      rw [hev, he] at hb
      rcases List.mem_append.mp hb with hb1 | hb2
      · rcases List.mem_cons.mp hb1 with hc | hc
        · simp at hc
        · rcases List.mem_cons.mp hc with hd | hd
          · simp only [Event.onTap.injEq] at hd
            exact hd
          · simp at hd
      · exact absurd hb2 (onTap_not_released m.interactiveItems b)
    · rw [hprev]
      exact hp
  · intro hout
    have hout1 : ¬(0 ≤ duration { p with timeUp := m.now } m ∧
        duration { p with timeUp := m.now } m ≤ m.tapRate) := by rw [hdur]; exact hout
    have he := (stopTap_events { p with timeUp := m.now } m hov).2 hout1
    have hp := (stopTap_prevTap { p with timeUp := m.now } m hov).2 hout1
    constructor
    · intro b hb
      rw [hev, he] at hb
      rcases List.mem_append.mp hb with hb1 | hb2
      · rcases List.mem_cons.mp hb1 with hc | hc
        · simp at hc
        · simp at hc
      · exact absurd hb2 (onTap_not_released m.interactiveItems b)
    · rw [hprev]
      exact hp

/-- Claim C5 counterexample: a release five time units into a press (well
within `tapRate`) dispatches no tap signal at all when the override policy is
touch-overrides-mouse while another pointer is active, although the call is
not reset-suppressed. -/
theorem claim5_counterexample :
    pStop.stateReset = false ∧
    (0 ≤ duration pStop mNoTap ∧ duration pStop mNoTap ≤ mNoTap.tapRate) ∧
    (∀ b, Event.onTap b ∉ (stop pStop mNoTap sampleEvent).2.2) := by
  decide

/-- Claim C5 witness: the same release under an active override policy
yields the tap signal and updates `previousTapTime`. -/
theorem stop_tap_spec_witness :
    (pStop.stateReset = false ∧ overrideActive sampleManager = true ∧
      0 ≤ duration pStop sampleManager ∧ duration pStop sampleManager ≤ sampleManager.tapRate) ∧
    (Event.onTap
        (decide (sampleManager.now - pStop.previousTapTime < sampleManager.doubleTapRate)) ∈
      (stop pStop sampleManager sampleEvent).2.2 ∧
      (stop pStop sampleManager sampleEvent).1.previousTapTime = sampleManager.now) :=
  ⟨⟨rfl, by decide, by decide, by decide⟩,
    ((stop_tap_spec pStop sampleManager sampleEvent rfl (by decide)).1
      ⟨by decide, by decide⟩).1,
    ((stop_tap_spec pStop sampleManager sampleEvent rfl (by decide)).1
      ⟨by decide, by decide⟩).2.2⟩

/-- Claim C6: the history buffer never exceeds `recordLimit` after `update`,
`start` or `reset`, given it respected the limit before; when a due `update`
overflows a full buffer the evicted sample is the front (oldest) one, and a
due `update` on a buffer strictly under the limit appends without
eviction. -/
theorem history_capacity (p : Pointer) (m : InputManager) (ev : DomEvent)
    (h : p.history.length ≤ m.recordLimit) :
    (update p m).1.history.length ≤ m.recordLimit ∧
    (start p m ev).1.history.length ≤ m.recordLimit ∧
    (reset p).1.history.length ≤ m.recordLimit ∧
    (p.active = true → m.recordPointerHistory = true → p.nextDrop ≤ m.now →
      p.history.length = m.recordLimit → 0 < m.recordLimit →
      (update p m).1.history = p.history.tail ++ [(p.positionX, p.positionY)]) ∧
    (p.active = true → m.recordPointerHistory = true → p.nextDrop ≤ m.now →
      p.history.length < m.recordLimit →
      (update p m).1.history = p.history ++ [(p.positionX, p.positionY)]) := by
  have hreset : (reset p).1.history = [] := by
    unfold reset
    split <;> rfl
  refine ⟨?_, ?_, ?_, ?_, ?_⟩
  · by_cases ha : p.active = false
    · have hup : update p m = (p, m, []) := by
        unfold update
        rw [if_pos ha]
      rw [hup]
      exact h
    · have ha2 : p.active = true := by
        cases hx : p.active
        · exact absurd hx ha
        · rfl
      rw [update_history p m ha2]
      split
      · split
        · rename_i h1 h2
          rw [List.length_tail, List.length_append]
          simp only [List.length_cons, List.length_nil]
          omega
        · rename_i h1 h2
          rw [List.length_append]
          simp only [List.length_cons, List.length_nil]
          omega
      · exact h
  · rw [start_history]
    simp
  · rw [hreset]
    simp
  · intro ha hr hd hfull hpos
    rw [update_history p m ha, if_pos ⟨hr, hd⟩, if_pos (by omega)]
    cases hh : p.history with
    | nil =>
      rw [hh] at hfull
      simp at hfull
      omega
    | cons a t => simp [hh]
  · intro ha hr hd hlt
    rw [update_history p m ha, if_pos ⟨hr, hd⟩, if_neg (by omega)]

/-- Claim C6 witness: a full three-sample buffer on a due, active update
evicts the oldest sample. -/
theorem history_capacity_witness :
    pFull.history.length ≤ sampleManager.recordLimit ∧
    ((update pFull sampleManager).1.history.length ≤ sampleManager.recordLimit ∧
      (update pFull sampleManager).1.history = [(2, 2), (3, 3), (7, 8)]) := by
  refine ⟨by decide, ?_, ?_⟩
  · exact (history_capacity pFull sampleManager sampleEvent (by decide)).1
  · have h4 := (history_capacity pFull sampleManager sampleEvent (by decide)).2.2.2.1
      rfl rfl (by decide) (by decide) (by decide)
    rw [h4]
    rfl

/-- Claim C7: `start` computes `msSinceLastClick` as the current time minus
the previous press's `timeDown` (read before `timeDown` is overwritten), and
then records the current time in `timeDown`. -/
theorem start_timing (p : Pointer) (m : InputManager) (ev : DomEvent) :
    (start p m ev).1.msSinceLastClick = m.now - p.timeDown ∧
    (start p m ev).1.timeDown = m.now := by
  constructor
  · simp only [start, move_msSinceLastClick]
    (repeat' split) <;> rfl
  · simp only [start, move_timeDown]

/-- Claim C8: exactly one of `isDown`/`isUp` holds after construction, and
each operation preserves the exclusion — `start`, `stop` and `reset` write
the pair together, while `move`, `update` and `leave` leave it untouched. -/
theorem downUp_invariant (p : Pointer) (m : InputManager) (ev : DomEvent)
    (n : Nat) (f : Bool) (h : p.isDown = !p.isUp) :
    (mkPointer n).isDown = !(mkPointer n).isUp ∧
    (start p m ev).1.isDown = !(start p m ev).1.isUp ∧
    (move p m ev f).1.isDown = !(move p m ev f).1.isUp ∧
    (update p m).1.isDown = !(update p m).1.isUp ∧
    (stop p m ev).1.isDown = !(stop p m ev).1.isUp ∧
    (leave p m ev).1.isDown = !(leave p m ev).1.isUp ∧
    (reset p).1.isDown = !(reset p).1.isUp := by
  refine ⟨rfl, ?_, ?_, ?_, ?_, ?_, rfl⟩
  · simp [start, move_isDown, move_isUp]
  · rw [move_isDown, move_isUp]
    exact h
  · rw [update_isDown, update_isUp]
    exact h
  · by_cases hsr : p.stateReset = true
    · unfold stop
      rw [if_pos hsr]
      exact h
    · unfold stop
      rw [if_neg hsr]
      rfl
  · unfold leave
    rw [move_isDown, move_isUp]
    exact h

/-- Claim C8 witness: the invariant at a concrete down pointer. -/
theorem downUp_invariant_witness :
    (pStop.isDown = !pStop.isUp) ∧
    ((mkPointer 5).isDown = !(mkPointer 5).isUp ∧
      (start pStop sampleManager sampleEvent).1.isDown =
        !(start pStop sampleManager sampleEvent).1.isUp ∧
      (move pStop sampleManager sampleEvent false).1.isDown =
        !(move pStop sampleManager sampleEvent false).1.isUp ∧
      (update pStop sampleManager).1.isDown = !(update pStop sampleManager).1.isUp ∧
      (stop pStop sampleManager sampleEvent).1.isDown =
        !(stop pStop sampleManager sampleEvent).1.isUp ∧
      (leave pStop sampleManager sampleEvent).1.isDown =
        !(leave pStop sampleManager sampleEvent).1.isUp ∧
      (reset pStop).1.isDown = !(reset pStop).1.isUp) :=
  ⟨rfl, downUp_invariant pStop sampleManager sampleEvent 5 false rfl⟩

/-- Claim C9: a `stop` call arriving while `_stateReset` is raised is fully
suppressed — the pointer and the shared manager state are returned unchanged
and the only effect is the DOM-level `preventDefault`, so no signal is
dispatched and no candidate is notified of release. -/
theorem stop_stateReset_suppressed (p : Pointer) (m : InputManager) (ev : DomEvent)
    (h : p.stateReset = true) :
    stop p m ev = (p, m, [Event.preventDefault]) := by
  unfold stop
  rw [if_pos h]

/-- Claim C9 witness: a concrete suppressed release. -/
theorem stop_stateReset_suppressed_witness :
    ({ mkPointer 2 with stateReset := true } : Pointer).stateReset = true ∧
    stop { mkPointer 2 with stateReset := true } sampleManager sampleEvent =
      ({ mkPointer 2 with stateReset := true }, sampleManager, [Event.preventDefault]) :=
  ⟨rfl, stop_stateReset_suppressed { mkPointer 2 with stateReset := true }
    sampleManager sampleEvent rfl⟩

/-- Claim C10: `reset` leaves `timeDown`, `timeUp`, `previousTapTime` and
`msSinceLastClick` untouched while forcing `isUp = true`; consequently a
pointer that was down can report `justReleased` immediately after a `reset`,
although no `stop` occurred — witnessed by a concrete pointer whose stale
`timeUp` still lies within the just-released window. -/
theorem reset_timing_fields (p : Pointer) :
    (reset p).1.timeDown = p.timeDown ∧
    (reset p).1.timeUp = p.timeUp ∧
    (reset p).1.previousTapTime = p.previousTapTime ∧
    (reset p).1.msSinceLastClick = p.msSinceLastClick ∧
    (reset p).1.isUp = true ∧
    (∃ q : Pointer, ∃ mq : InputManager, q.isUp = false ∧
      justReleased (reset q).1 mq none = true) := by
  have h1 : (reset p).1.timeDown = p.timeDown := by unfold reset; split <;> rfl
  have h2 : (reset p).1.timeUp = p.timeUp := by unfold reset; split <;> rfl
  have h3 : (reset p).1.previousTapTime = p.previousTapTime := by
    unfold reset; split <;> rfl
  have h4 : (reset p).1.msSinceLastClick = p.msSinceLastClick := by
    unfold reset; split <;> rfl
  exact ⟨h1, h2, h3, h4, rfl,
    ⟨{ mkPointer 3 with isDown := true, isUp := false, timeUp := 900 }, sampleManager,
      rfl, by decide⟩⟩

end Phaser
